import Mathlib

/-!
Verification development for the brief-analyzer citation pipeline.

The definitions below are a shallow embedding of the Python modules
src/brief_analyzer/steps/s5_verify_authorities.py (citation normalizer and
authority matcher) and src/brief_analyzer/steps/s5_citecheck.py (grouping,
verdict merge and report formatting).  Python strings are modelled as lists
of characters; Python dicts whose keys may be absent become structures with
Option fields, read through getD with the same defaults the code passes to
dict.get.  Early-return cascades become chained Option matches.
-/

set_option maxRecDepth 4000

/-- Python strings are modelled as lists of characters. -/
abbrev Str := List Char

/-- Shorthand turning a Lean string literal into the character-list model. -/
def S (s : String) : Str := s.toList

/-- needle is a leading segment of hay (List.isPrefixOf, spelled out). -/
def lstarts : Str → Str → Bool
  | [], _ => true
  | _ :: _, [] => false
  | a :: as, b :: bs => a = b && lstarts as bs

/-- Python substring containment: needle in hay. -/
def lsub (needle : Str) : Str → Bool
  | [] => needle.isEmpty
  | c :: rest => lstarts needle (c :: rest) || lsub needle rest

/-- Python str.lower for the ASCII range used by the code. -/
def lc (s : Str) : Str := s.map Char.toLower

/-- The whitespace class of Python str.split and of the regex class for s. -/
def pySpace (c : Char) : Bool :=
  c = ' ' || c = '\t' || c = '\n' || c = '\x0d' || c = '\x0b' || c = '\x0c'

/-- Python str.rstrip with an explicit character set. -/
def rstripCh (cs : List Char) (s : Str) : Str :=
  (s.reverse.dropWhile (fun c => cs.contains c)).reverse

/-- Python str.strip() (whitespace from both ends). -/
def stripWS (s : Str) : Str :=
  ((s.dropWhile pySpace).reverse.dropWhile pySpace).reverse

/-- Python str.split() : split on whitespace runs, discarding empties. -/
def wordsAux : Str → Str → List Str
  | acc, [] => if acc.isEmpty then [] else [acc.reverse]
  | acc, c :: rest =>
    if pySpace c then
      if acc.isEmpty then wordsAux [] rest else acc.reverse :: wordsAux [] rest
    else wordsAux (c :: acc) rest

/-- Word list of a party name, as Python str.split() produces it. -/
def words (s : Str) : List Str := wordsAux [] s

/-- Python str.isdigit for ASCII digits (empty string is not a digit string). -/
def isDigitStr (s : Str) : Bool := !s.isEmpty && s.all Char.isDigit

/-- Decimal rendering of a number, as a Python f-string would print it. -/
def natStr (n : Nat) : Str := (Nat.repr n).toList

/-- Split at the first occurrence of sep: Python s.split(sep, 1) when sep occurs. -/
def breakOn (sep : Str) : Str → Option (Str × Str)
  | [] => if sep.isEmpty then some ([], []) else none
  | c :: rest =>
    if lstarts sep (c :: rest) then some ([], (c :: rest).drop sep.length)
    else
      match breakOn sep rest with
      | some (pre, post) => some (c :: pre, post)
      | none => none

/-- Replace every occurrence of pat (assumed nonempty) by rep: Python str.replace. -/
def lreplace (pat rep : Str) : Str → Str
  | [] => []
  | c :: rest =>
    if lstarts pat (c :: rest) && !pat.isEmpty then
      rep ++ lreplace pat rep (rest.drop (pat.length - 1))
    else c :: lreplace pat rep rest
termination_by s => s.length
decreasing_by
  · simp only [List.length_drop, List.length_cons]
    omega
  · simp

/-! ### Citation Normalizer: s5_verify_authorities.py lines 36-103 -/

/-- GENERIC_PARTIES from s5_verify_authorities.py lines 36-39. -/
def GENERIC_PARTIES : List Str :=
  [S "united states", S "people", S "state", S "commonwealth", S "com",
   S "florida", S "kansas", S "minnesota", S "texas", S "illinois", S "california"]

/-- PARTY_NOISE_WORDS from s5_verify_authorities.py line 42. -/
def PARTY_NOISE_WORDS : List Str :=
  [S "no", S "inc", S "co", S "corp", S "ltd", S "dist", S "et", S "al"]

/-- w.rstrip(".,;:").lower() applied to one word inside best_word. -/
def cleanWord (w : Str) : Str := lc (rstripCh [',', ';', ':', '.'] w)

/-- The skip condition of the reverse walk in best_word (line 75). -/
def bwSkip (c : Str) : Bool :=
  isDigitStr c || decide (c.length ≤ 1) || PARTY_NOISE_WORDS.contains c

/-- The keep condition of the forward fallback in best_word (line 81). -/
def bwKeep (c : Str) : Bool := decide (1 < c.length) && !isDigitStr c

/-- The reverse walk of best_word: first cleaned word not skipped (lines 73-77). -/
def bwRevLoop : List Str → Option Str
  | [] => none
  | w :: rest =>
    let clean := cleanWord w
    if bwSkip clean then bwRevLoop rest else some clean

/-- The forward fallback loop of best_word (lines 79-82). -/
def bwFwdLoop : List Str → Option Str
  | [] => none
  | w :: rest =>
    let clean := cleanWord w
    if bwKeep clean then some clean else bwFwdLoop rest

/-- The inner function best_word of extract_match_names (lines 69-83). -/
def best_word (party : Str) : Str :=
  match bwRevLoop (words party).reverse with
  | some c => c
  | none =>
    match bwFwdLoop (words party) with
    | some c => c
    | none => []

/-- Party list of a case name: split on " v. " then " v " once, else whole
string (lines 53-58). -/
def splitParties (case_name : Str) : List Str :=
  if lsub (S " v. ") case_name then
    match breakOn (S " v. ") case_name with
    | some (a, b) => [a, b]
    | none => [case_name]
  else if lsub (S " v ") case_name then
    match breakOn (S " v ") case_name with
    | some (a, b) => [a, b]
    | none => [case_name]
  else [case_name]

/-- Wrap a possibly-empty token the way the Python appends guard with if sp. -/
def optTok (s : Str) : List Str := if s.isEmpty then [] else [s]

/-- _extract_match_names from s5_verify_authorities.py lines 45-103. -/
def extract_match_names (case_name : Str) : List Str :=
  let parts := splitParties case_name
  let first_party := stripWS (parts.headD [])
  let second_party := if 1 < parts.length then stripWS (parts.getD 1 []) else []
  let first_lower := rstripCh ['.', ','] (lc first_party)
  let is_generic := GENERIC_PARTIES.contains first_lower
  if is_generic && !second_party.isEmpty then
    optTok (best_word second_party) ++ optTok (best_word first_party)
  else
    optTok (best_word first_party) ++
      (if second_party.isEmpty then [] else optTok (best_word second_party))

/-- Modelled on the words of the spec, section 4.1: the most distinctive word
of a party walks the cleaned words in reverse, skipping pure-digit tokens,
single-character tokens and the fixed noise words, returning the first
qualifying word, and falls back to the first substantive forward word. -/
def distinctiveWordSpec (party : Str) : Str :=
  let ws := (words party).map cleanWord
  match ws.reverse.find? (fun c => !bwSkip c) with
  | some c => c
  | none =>
    match ws.find? bwKeep with
    | some c => c
    | none => []

/-! ### Raw-citation regex of strategy 4c (s5_verify_authorities.py line 273)

The pattern is a word boundary, digits, whitespace, a letter, one or more of
the class letters, dot, space or apostrophe, whitespace, digits, and a word
boundary, with re.findall scanning left to right and continuing after the end
of each match.  Because the middle character class excludes digits, the
backtracking of the greedy class reduces to: the maximal class run must keep
at least one character after giving back at least one of its trailing spaces,
and must be followed directly by digits and a closing boundary. -/

/-- The word-character class of the regex boundary anchors. -/
def isWordCh (c : Char) : Bool := c.isAlpha || c.isDigit || c = '_'

/-- The middle character class of the raw-citation pattern. -/
def classC (c : Char) : Bool :=
  c.isAlpha || c = '.' || c = ' ' || c = Char.ofNat 39

/-- Try the raw-citation pattern anchored at the start of s; the leading word
boundary is checked by the caller.  Returns the matched text and the rest. -/
def rawAt (s : Str) : Option (Str × Str) :=
  let d1 := s.takeWhile Char.isDigit
  let r1 := s.dropWhile Char.isDigit
  if d1.isEmpty then none else
  let w1 := r1.takeWhile pySpace
  let r2 := r1.dropWhile pySpace
  if w1.isEmpty then none else
  match r2 with
  | [] => none
  | c :: r3 =>
    if !c.isAlpha then none else
    let m := r3.takeWhile classC
    let r4 := r3.dropWhile classC
    let t := (m.reverse.takeWhile (fun x => x = ' ')).length
    let d2 := r4.takeWhile Char.isDigit
    let r5 := r4.dropWhile Char.isDigit
    if 1 ≤ t && 2 ≤ m.length && !d2.isEmpty &&
        (match r5 with | [] => true | x :: _ => !isWordCh x) then
      some (d1 ++ w1 ++ c :: (m ++ d2), r5)
    else none

/-- re.findall driver: attempt the pattern at every position whose previous
character is not a word character, continuing after each match. -/
def findRawAux : Nat → Option Char → Str → List Str
  | 0, _, _ => []
  | _ + 1, _, [] => []
  | fuel + 1, prev, c :: rest =>
    let boundaryOk := match prev with | none => true | some pc => !isWordCh pc
    if boundaryOk then
      match rawAt (c :: rest) with
      | some (mt, rest2) => mt :: findRawAux fuel (some (mt.getLastD 'x')) rest2
      | none => findRawAux fuel (some c) rest
    else findRawAux fuel (some c) rest

/-- All raw "volume reporter page" citations the regex extracts from an entry. -/
def findRaw (s : Str) : List Str := findRawAux (s.length + 1) none s

/-- re.search of a word-boundary-delimited literal: the page narrowing of
strategy 5 (s5_verify_authorities.py lines 314-317). -/
def wbAt (needle : Str) (prev : Option Char) (s : Str) : Bool :=
  lstarts needle s &&
  (match prev with | none => true | some c => !isWordCh c) &&
  (match s.drop needle.length with | [] => true | c :: _ => !isWordCh c)

/-- Scan every position of the haystack for a word-boundary occurrence. -/
def containsWBAux (needle : Str) : Option Char → Str → Bool
  | prev, [] => wbAt needle prev []
  | prev, c :: rest => wbAt needle prev (c :: rest) || containsWBAux needle (some c) rest

/-- Whole-word containment of a literal needle. -/
def containsWB (needle s : Str) : Bool := containsWBAux needle none s

/-! ### Authority Matcher: _match_authority, s5_verify_authorities.py lines 192-364 -/

/-- One parsed case entry of AUTHORITIES.md (the fields _match_authority reads). -/
structure CaseEntry where
  full_entry : Str
  case_name : Str
  volume : Str
  reporter : Str
  page : Str
  wl_year : Str
  wl_number : Str
  docket_number : Str
  match_names : List Str
deriving DecidableEq

/-- The authority corpus: filename-and-content pairs in directory order. -/
abbrev Corpus := List (Str × Str)

/-- The result dict of _match_authority. -/
structure MatchResult where
  status : Str
  file : Option Str
  match_method : Option Str
deriving DecidableEq

/-- The missing result (s5_verify_authorities.py lines 323, 345). -/
def missingResult : MatchResult := ⟨S "missing", none, none⟩

/-- The "volume reporter page" citation string of strategies 1 and 3. -/
def citeStr (c : CaseEntry) : Str :=
  c.volume ++ [' '] ++ c.reporter ++ [' '] ++ c.page

/-- Candidate filenames of strategy 1: citation substring of the filename,
guarded by all three citation components being nonempty (lines 211-214). -/
def cand1 (c : CaseEntry) (fs : Corpus) : List Str :=
  if !c.volume.isEmpty && !c.reporter.isEmpty && !c.page.isEmpty then
    (fs.filter (fun p => lsub (citeStr c) p.1)).map Prod.fst
  else []

/-- Candidate filenames of strategy 2: WL number in the filename (line 228). -/
def cand2 (c : CaseEntry) (fs : Corpus) : List Str :=
  if !c.wl_number.isEmpty then
    (fs.filter (fun p => lsub c.wl_number p.1)).map Prod.fst
  else []

/-- The citation variants of strategy 3, with the U.S. spacing variant
(lines 235-238). -/
def citeVariants (c : CaseEntry) : List Str :=
  [citeStr c] ++
    (if lsub (S "U.S.") c.reporter then
       [lreplace (S "U.S.") (S "U. S.") (citeStr c)]
     else [])

/-- Candidate filenames of strategy 3: a citation variant in the full content
(lines 234-244). -/
def cand3 (c : CaseEntry) (fs : Corpus) : List Str :=
  if !c.volume.isEmpty && !c.reporter.isEmpty && !c.page.isEmpty then
    (fs.filter (fun p => (citeVariants c).any (fun v => lsub v p.2))).map Prod.fst
  else []

/-- Candidate filenames of strategy 4: "year WL number" in the content
(lines 256-260). -/
def cand4 (c : CaseEntry) (fs : Corpus) : List Str :=
  if !c.wl_year.isEmpty && !c.wl_number.isEmpty then
    (fs.filter (fun p => lsub (c.wl_year ++ (S " WL ") ++ c.wl_number) p.2)).map Prod.fst
  else []

/-- Candidate filenames of strategy 4b: docket number in the content
(lines 263-267). -/
def cand4b (c : CaseEntry) (fs : Corpus) : List Str :=
  if !c.docket_number.isEmpty then
    (fs.filter (fun p => lsub c.docket_number p.2)).map Prod.fst
  else []

/-- Header hits of one raw citation in strategy 4c (lines 279-280). -/
def cand4cHits (rc : Str) (fs : Corpus) : List Str :=
  (fs.filter (fun p => lsub rc (p.2.take 2000))).map Prod.fst

/-- Header hits of one name prefix in strategy 5 (lines 295-299). -/
def cand5 (fs : Corpus) (name : Str) : List Str :=
  let pfx := if 4 < name.length then name.take (max 4 (name.length - 2)) else name
  (fs.filter (fun p => lsub pfx (lc (p.2.take 2000)))).map Prod.fst

/-- Filename hits of one name in strategy 6 (lines 329-333, 338-340). -/
def cand6 (fs : Corpus) (name : Str) : List Str :=
  (fs.map Prod.fst).filter (fun fn => lsub name (lc fn))

/-- The found status string. -/
def stFound : Str := S "found"

/-- The uncertain status string. -/
def stUncertain : Str := S "uncertain"

/-- Strategy 1: exact volume/reporter/page in a filename, with name
disambiguation among companion cases (lines 211-224). -/
def strat1 (c : CaseEntry) (fs : Corpus) : Option MatchResult :=
  match cand1 c fs with
  | [] => none
  | [f] => some ⟨stFound, some f, some (S "cite_in_filename")⟩
  | f :: g :: rest =>
    match (f :: g :: rest).find?
        (fun fn => c.match_names.any (fun n => lsub n (lc fn))) with
    | some fn => some ⟨stFound, some fn, some (S "cite_in_filename (disambiguated)")⟩
    | none => some ⟨stFound, some f, some (S "cite_in_filename")⟩

/-- Strategy 2: WL number in a filename, first hit wins (lines 227-230). -/
def strat2 (c : CaseEntry) (fs : Corpus) : Option MatchResult :=
  match cand2 c fs with
  | [] => none
  | f :: _ => some ⟨stFound, some f, some (S "wl_in_filename")⟩

/-- Strategy 3: citation variant in the full content, with name
disambiguation (lines 234-253). -/
def strat3 (c : CaseEntry) (fs : Corpus) : Option MatchResult :=
  match cand3 c fs with
  | [] => none
  | [f] => some ⟨stFound, some f, some (S "cite_in_content")⟩
  | f :: g :: rest =>
    match (f :: g :: rest).find?
        (fun fn => c.match_names.any (fun n => lsub n (lc fn))) with
    | some fn => some ⟨stFound, some fn, some (S "cite_in_content (disambiguated)")⟩
    | none => some ⟨stFound, some f, some (S "cite_in_content")⟩

/-- Strategy 4: "year WL number" in the content, first hit wins (lines 256-260). -/
def strat4 (c : CaseEntry) (fs : Corpus) : Option MatchResult :=
  match cand4 c fs with
  | [] => none
  | f :: _ => some ⟨stFound, some f, some (S "wl_in_content")⟩

/-- Strategy 4b: docket number in the content, first hit wins (lines 262-267). -/
def strat4b (c : CaseEntry) (fs : Corpus) : Option MatchResult :=
  match cand4b c fs with
  | [] => none
  | f :: _ => some ⟨stFound, some f, some (S "docket_in_content")⟩

/-- One raw citation attempt of strategy 4c: a stripped raw citation of
length at least 5 whose header-hit set is a singleton wins (lines 276-283). -/
def rawOne (fs : Corpus) (rcs : Str) : Option MatchResult :=
  if rcs.length < 5 then none
  else
    match cand4cHits rcs fs with
    | [f] => some ⟨stFound, some f,
        some ((S "raw_cite_in_content (") ++ rcs ++ [')'])⟩
    | _ => none

/-- The per-raw-citation loop of strategy 4c (lines 274-283): continue past a
raw citation whose stripped text is short or whose header-hit set is not a
singleton. -/
def rawLoop (fs : Corpus) : List Str → Option MatchResult
  | [] => none
  | rc :: rest =>
    match rawOne fs (stripWS rc) with
    | some r => some r
    | none => rawLoop fs rest

/-- Strategy 4c: raw citation in the content header, only attempted when the
entry has no parsed volume (lines 269-283). -/
def strat4c (c : CaseEntry) (fs : Corpus) : Option MatchResult :=
  if c.volume.isEmpty then rawLoop fs (findRaw c.full_entry) else none

/-- The both-names narrowing loop inside strategy 5 (lines 306-311). -/
def otherLoop (fs : Corpus) (hits : List Str) (name : Str) :
    List Str → Option MatchResult
  | [] => none
  | oname :: rest =>
    match hits.filter (fun f => lsub oname (lc (((fs.lookup f).getD []).take 2000))) with
    | [f1] => some ⟨stFound, some f1,
        some ((S "both_names_in_content (") ++ name ++ (S ", ") ++ oname ++ [')'])⟩
    | _ => otherLoop fs hits name rest

/-- The narrowing of a multiple name hit inside strategy 5: both-names
narrowing first, then page narrowing; none means the hit could not be
narrowed and the loop moves on (lines 303-319). -/
def nameMulti (c : CaseEntry) (fs : Corpus) (name : Str) (hits : List Str) :
    Option MatchResult :=
  match (if 1 < c.match_names.length then
      otherLoop fs hits name
        (c.match_names.filter (fun n => n ≠ name && !GENERIC_PARTIES.contains n))
    else none) with
  | some r => some r
  | none =>
    if !c.page.isEmpty then
      match hits.filter
          (fun f => containsWB c.page (((fs.lookup f).getD []).take 2000)) with
      | [f1] => some ⟨stFound, some f1,
          some ((S "name_and_page_in_content (") ++ name ++ (S ", p.")
            ++ c.page ++ [')'])⟩
      | _ => none
    else none

/-- The per-name loop of strategy 5 (lines 289-319): skip generic names; a
single header hit wins; multiple hits go through the narrowing of nameMulti,
and on its failure the loop continues with the next name. -/
def nameLoop (c : CaseEntry) (fs : Corpus) : List Str → Option MatchResult
  | [] => none
  | name :: rest =>
    if GENERIC_PARTIES.contains name then nameLoop c fs rest
    else
      match cand5 fs name with
      | [] => nameLoop c fs rest
      | [f] => some ⟨stFound, some f,
          some ((S "name_in_content (") ++ name ++ [')'])⟩
      | f :: g :: more =>
        match nameMulti c fs name (f :: g :: more) with
        | some r => some r
        | none => nameLoop c fs rest

/-- Strategy 5: name matching in content headers (lines 285-319). -/
def strat5 (c : CaseEntry) (fs : Corpus) : Option MatchResult :=
  nameLoop c fs c.match_names

/-- Strategy 6: name matching in filenames; always produces a final result
(lines 321-364). -/
def strat6 (c : CaseEntry) (fs : Corpus) : MatchResult :=
  match c.match_names with
  | [] => missingResult
  | primary :: restNames =>
    let secondary := restNames.head?
    match cand6 fs primary with
    | [] =>
      match secondary with
      | some sName =>
        match cand6 fs sName with
        | [f] => ⟨stUncertain, some f,
            some ((S "secondary_name (") ++ sName ++ [')'])⟩
        | _ => missingResult
      | none => missingResult
    | [f] => ⟨stUncertain, some f, some ((S "name (") ++ primary ++ [')'])⟩
    | f :: g :: more =>
      let primMatches := f :: g :: more
      match secondary with
      | some sName =>
        match primMatches.filter (fun fn => lsub sName (lc fn)) with
        | [bf] => ⟨stFound, some bf,
            some ((S "both_parties (") ++ primary ++ (S ", ") ++ sName ++ [')'])⟩
        | bf :: b2 :: bmore =>
          ⟨stUncertain, some bf,
            some ((S "both_parties (") ++ primary ++ (S ", ") ++ sName ++ (S ", ")
              ++ natStr (bf :: b2 :: bmore).length ++ (S " candidates)"))⟩
        | [] =>
          ⟨stUncertain, some f,
            some ((S "name (") ++ primary ++ (S ", ")
              ++ natStr primMatches.length ++ (S " candidates)"))⟩
      | none =>
        ⟨stUncertain, some f,
          some ((S "name (") ++ primary ++ (S ", ")
            ++ natStr primMatches.length ++ (S " candidates)"))⟩

/-- _match_authority: the eight strategies tried in order, each early return
becoming the first some of the chain (lines 192-364). -/
def match_authority (c : CaseEntry) (fs : Corpus) : MatchResult :=
  match strat1 c fs with
  | some r => r
  | none =>
    match strat2 c fs with
    | some r => r
    | none =>
      match strat3 c fs with
      | some r => r
      | none =>
        match strat4 c fs with
        | some r => r
        | none =>
          match strat4b c fs with
          | some r => r
          | none =>
            match strat4c c fs with
            | some r => r
            | none =>
              match strat5 c fs with
              | some r => r
              | none => strat6 c fs

/-! ### Cite-check merge and report: s5_citecheck.py -/

/-- One verdict record parsed from the verification response.  Fields mirror
the keys _format_report and the merge loop read with dict.get; none means the
key is absent or null. -/
structure Verdict where
  index : Option Int
  severity : Option Str
  explanation : Option Str
  quotation_accurate : Option Bool
  relevance : Option Str
  relevance_note : Option Str
  advocacy_gap : Option Str
deriving DecidableEq

/-- One citation-proposition pair after grouping: the extraction fields the
code reads through dict.get, plus brief_name, authority_file and verdict as
the grouper and merge loop set them. -/
structure MPair where
  case_name : Option Str
  volume : Option Str
  reporter : Option Str
  page : Option Str
  pin_cite : Option Str
  proposition : Option Str
  quotation : Option Str
  purpose : Option Str
  argument_context : Option Str
  brief_name : Str
  authority_file : Option Str
  verdict : Option Verdict
deriving DecidableEq

/-- The numbered header line opening one proposition block
(s5_citecheck.py line 278). -/
def propHeaderLine (i : Nat) (p : MPair) : Str :=
  (S "--- Proposition ") ++ natStr i ++ (S " (from ") ++ p.brief_name ++ (S ") ---")

/-- The serialized block of one proposition in the verification request
(_verify_authority, s5_citecheck.py lines 277-290), numbered from 1. -/
def propBlock (i : Nat) (p : MPair) : List Str :=
  [propHeaderLine i p,
   (S "Citation as given: ") ++ (p.case_name.getD (S "?")) ++ (S ", ")
     ++ (p.volume.getD []) ++ [' '] ++ (p.reporter.getD []) ++ [' '] ++ (p.page.getD [])]
  ++ (if (p.pin_cite.getD []).isEmpty then []
      else [(S "Pin cite: ") ++ (p.pin_cite.getD [])])
  ++ [(S "Purpose: ") ++ (p.purpose.getD (S "supporting"))]
  ++ (if (p.argument_context.getD []).isEmpty then []
      else [(S "Argument context: ") ++ (p.argument_context.getD [])])
  ++ [(S "Proposition: ") ++ (p.proposition.getD [])]
  ++ (if (p.quotation.getD []).isEmpty then []
      else [(S "Quotation from brief: \"") ++ (p.quotation.getD []) ++ [Char.ofNat 34]])
  ++ [[]]

/-- The full proposition section of one verification request: one block per
mention, in list order, enumerated from 1. -/
def buildPropLines (props : List MPair) : List Str :=
  (List.enumFrom 1 props).flatMap (fun ip => propBlock ip.1 ip.2)

/-- Set the verdict of the element at an index (props[idx]["verdict"] = v). -/
def setAt : List MPair → Nat → Verdict → List MPair
  | [], _, _ => []
  | p :: rest, 0, v => { p with verdict := some v } :: rest
  | p :: rest, n + 1, v => p :: setAt rest n v

/-- One step of the merge-back loop of run (s5_citecheck.py lines 646-649):
a verdict lands at its 1-based index when that index is in range, and an
out-of-range index leaves the list unchanged. -/
def assignStep (acc : List MPair) (v : Verdict) : List MPair :=
  if 0 ≤ (v.index.getD 0) - 1 ∧ (v.index.getD 0) - 1 < (acc.length : Int) then
    setAt acc ((v.index.getD 0) - 1).toNat v
  else acc

/-- The whole merge-back fold over an authority's verdict list. -/
def assignVerdicts (props : List MPair) (avs : List Verdict) : List MPair :=
  avs.foldl assignStep props

/-- The synthesized verdict for an authority whose verification returned no
results after both passes (s5_citecheck.py lines 652-657). -/
def errVerdict (af : Str) : Verdict :=
  { index := none,
    severity := some (S "Error"),
    explanation := some ((S "Verification failed for ") ++ af
      ++ (S " — Claude returned no results")),
    quotation_accurate := none, relevance := none,
    relevance_note := none, advocacy_gap := none }

/-- The synthesized verdict for a mention with no matching authority file
(s5_citecheck.py lines 660-665). -/
def criticalVerdict : Verdict :=
  { index := none,
    severity := some (S "Critical"),
    explanation := some (S "No authority file found"),
    quotation_accurate := none, relevance := none,
    relevance_note := none, advocacy_gap := none }

/-- Merge for one authority: assign returned verdicts by index, or mark every
mention with the synthesized error verdict when none came back
(s5_citecheck.py lines 643-657). -/
def mergeOne (af : Str) (props : List MPair) (avs : List Verdict) : List MPair :=
  if avs.isEmpty then props.map (fun p => { p with verdict := some (errVerdict af) })
  else assignVerdicts props avs

/-- The whole merge phase over the grouped mapping. -/
def mergeVerdicts (grouped : List (Str × List MPair))
    (verdicts : List (Str × List Verdict)) : List (Str × List MPair) :=
  grouped.map (fun g => (g.1, mergeOne g.1 g.2 ((verdicts.lookup g.1).getD [])))

/-- Mark every unmatched mention Critical (s5_citecheck.py lines 660-665). -/
def markNotFound (nf : List MPair) : List MPair :=
  nf.map (fun p => { p with verdict := some criticalVerdict })

/-- The pairs of one brief, collected in grouped order then not-found order
(s5_citecheck.py lines 671-674). -/
def briefPairs (grouped : List (Str × List MPair)) (nf : List MPair) (b : Str) :
    List MPair :=
  (grouped.flatMap (fun g => g.2.filter (fun p => p.brief_name = b)))
    ++ nf.filter (fun p => p.brief_name = b)

/-! ### Report formatting: _format_report, s5_citecheck.py lines 364-520 -/

/-- One categorized report entry (the dict built at lines 412-424). -/
structure Entry where
  citation : Str
  proposition : Str
  purpose : Str
  argument_context : Str
  severity : Str
  explanation : Str
  quot_accurate : Option Bool
  auth_file : Option Str
  relevance : Option Str
  relevance_note : Str
  advocacy_gap : Str
deriving DecidableEq

/-- Build the entry for one pair: defaults from dict.get, the synthesized
severity for a missing verdict, and the Critical override for a missing
authority file (s5_citecheck.py lines 381-424). -/
def mkEntry (p : MPair) : Entry :=
  let citation := (p.case_name.getD (S "?")) ++ (S ", ")
    ++ (p.volume.getD []) ++ [' '] ++ (p.reporter.getD []) ++ [' '] ++ (p.page.getD [])
  let base : Entry :=
    match p.verdict with
    | some v =>
      { citation := citation,
        proposition := p.proposition.getD [],
        purpose := p.purpose.getD (S "supporting"),
        argument_context := p.argument_context.getD [],
        severity := v.severity.getD (S "Error"),
        explanation := v.explanation.getD [],
        quot_accurate := v.quotation_accurate,
        auth_file := p.authority_file,
        relevance := v.relevance,
        relevance_note := v.relevance_note.getD [],
        advocacy_gap := v.advocacy_gap.getD [] }
    | none =>
      { citation := citation,
        proposition := p.proposition.getD [],
        purpose := p.purpose.getD (S "supporting"),
        argument_context := p.argument_context.getD [],
        severity := S "Error",
        explanation := S "No verification result returned",
        quot_accurate := none,
        auth_file := p.authority_file,
        relevance := none,
        relevance_note := [],
        advocacy_gap := [] }
  if p.authority_file.isNone then
    { base with
      severity := S "Critical",
      explanation := (S "No authority file found for ") ++ citation }
  else base

/-- The report buckets of the routing chain (s5_citecheck.py lines 426-436). -/
inductive Bucket where
  | accuracy
  | relevance
  | advocacy
  | critique
  | verified
deriving DecidableEq

/-- The routing chain itself: the first matching branch wins. -/
def routeBucket (e : Entry) : Bucket :=
  if e.severity = S "Advocacy" then Bucket.advocacy
  else if e.severity = S "Critique-Valid" ∨ e.severity = S "Critique-Questionable" then
    Bucket.critique
  else if (e.relevance = some (S "analogous") ∨ e.relevance = some (S "off_point"))
      ∧ e.severity = S "Verified" then
    Bucket.relevance
  else if e.severity = S "Minor" ∨ e.severity = S "Moderate"
      ∨ e.severity = S "Significant" ∨ e.severity = S "Critical"
      ∨ e.severity = S "Error" then
    Bucket.accuracy
  else Bucket.verified

/-- Membership test used to collect a bucket in iteration order. -/
def inBucket (b : Bucket) (e : Entry) : Bool := decide (routeBucket e = b)

/-- The counts dictionary of _format_report (lines 375-379). -/
structure Counts where
  critical : Nat
  significant : Nat
  moderate : Nat
  minor : Nat
  verified : Nat
  advocacy : Nat
  critiqueValid : Nat
  critiqueQuestionable : Nat
  err : Nat
deriving DecidableEq

/-- The all-zero counts dictionary. -/
def counts0 : Counts := ⟨0, 0, 0, 0, 0, 0, 0, 0, 0⟩

/-- counts[severity] += 1 when severity is one of the nine keys (lines 409-410);
any other severity leaves the counts unchanged. -/
def bump (c : Counts) (sev : Str) : Counts :=
  if sev = S "Critical" then { c with critical := c.critical + 1 }
  else if sev = S "Significant" then { c with significant := c.significant + 1 }
  else if sev = S "Moderate" then { c with moderate := c.moderate + 1 }
  else if sev = S "Minor" then { c with minor := c.minor + 1 }
  else if sev = S "Verified" then { c with verified := c.verified + 1 }
  else if sev = S "Advocacy" then { c with advocacy := c.advocacy + 1 }
  else if sev = S "Critique-Valid" then { c with critiqueValid := c.critiqueValid + 1 }
  else if sev = S "Critique-Questionable" then
    { c with critiqueQuestionable := c.critiqueQuestionable + 1 }
  else if sev = S "Error" then { c with err := c.err + 1 }
  else c

/-- Plural suffix of the summary f-strings. -/
def plural (n : Nat) : Str := if n ≠ 1 then ['s'] else []

/-- Python truthiness of an Option Str field: present and nonempty. -/
def truthy (o : Option Str) : Bool :=
  match o with
  | some s => !s.isEmpty
  | none => false

/-- How an f-string prints a possibly-None value. -/
def pyShowOpt (o : Option Str) : Str := (o.getD (S "None"))

/-- The authority-file line emitted when the field is truthy. -/
def authLine (e : Entry) : List Str :=
  if truthy e.auth_file then
    [(S "- **Authority file**: ") ++ (e.auth_file.getD [])]
  else []

/-- The summary line of one brief (s5_citecheck.py lines 444-455), with the
trailing newline the code appends. -/
def summaryStr (total nAcc nAdv nRel nCri : Nat) (cnt : Counts) : Str :=
  (S "**Summary**: ") ++ natStr total ++ (S " citations checked. ")
  ++ natStr nAcc ++ (S " accuracy issue") ++ plural nAcc ++ [' ']
  ++ ['('] ++ natStr cnt.critical ++ (S " critical, ")
  ++ natStr cnt.significant ++ (S " significant, ")
  ++ natStr cnt.moderate ++ (S " moderate, ")
  ++ natStr cnt.minor ++ (S " minor). ")
  ++ natStr nAdv ++ (S " advocacy target") ++ plural nAdv ++ (S ". ")
  ++ natStr nRel ++ (S " relevance gap") ++ plural nRel ++ (S ". ")
  ++ natStr nCri ++ (S " critique") ++ plural nCri ++ (S " checked.")
  ++ (if cnt.err ≠ 0 then [' '] ++ natStr cnt.err ++ (S " FAILED VERIFICATION.") else [])
  ++ (S "\n")

/-- The lines of one accuracy entry (s5_citecheck.py lines 460-468). -/
def accuracyLines (e : Entry) : List Str :=
  [(S "**") ++ e.citation ++ (S "** -- ") ++ e.severity,
   (S "- **Cited for**: ") ++ e.proposition]
  ++ authLine e
  ++ [(S "- **Assessment**: ") ++ e.explanation]
  ++ (if e.quot_accurate = some false then [S "- **Quotation**: inaccurate"] else [])
  ++ [[]]

/-- The Citation Accuracy section (emitted only when nonempty). -/
def accuracySection (es : List Entry) : List Str :=
  if es.isEmpty then [] else (S "#### Citation Accuracy\n") :: es.flatMap accuracyLines

/-- The lines of one relevance-gap entry (s5_citecheck.py lines 473-482). -/
def relevanceLines (e : Entry) : List Str :=
  [(S "**") ++ e.citation ++ (S "** -- relevance: ") ++ pyShowOpt e.relevance,
   (S "- **Cited for**: ") ++ e.proposition]
  ++ (if e.argument_context.isEmpty then []
      else [(S "- **Argument**: ") ++ e.argument_context])
  ++ (if e.relevance_note.isEmpty then []
      else [(S "- **Gap**: ") ++ e.relevance_note])
  ++ authLine e
  ++ [[]]

/-- The Relevance Gaps section. -/
def relevanceSection (es : List Entry) : List Str :=
  if es.isEmpty then [] else (S "#### Relevance Gaps\n") :: es.flatMap relevanceLines

/-- The lines of one advocacy entry (s5_citecheck.py lines 487-496). -/
def advocacyLines (e : Entry) : List Str :=
  [(S "**") ++ e.citation ++ (S "** -- Advocacy"),
   (S "- **Cited for**: ") ++ e.proposition]
  ++ (if e.argument_context.isEmpty then []
      else [(S "- **Argument**: ") ++ e.argument_context])
  ++ (if e.advocacy_gap.isEmpty then []
      else [(S "- **Gap to bridge**: ") ++ e.advocacy_gap])
  ++ authLine e
  ++ [[]]

/-- The Advocacy Targets section. -/
def advocacySection (es : List Entry) : List Str :=
  if es.isEmpty then [] else (S "#### Advocacy Targets\n") :: es.flatMap advocacyLines

/-- The lines of one critique entry (s5_citecheck.py lines 501-509). -/
def critiqueLines (e : Entry) : List Str :=
  [(S "**") ++ e.citation ++ (S "** -- ") ++ e.severity,
   (S "- **Cited for**: ") ++ e.proposition]
  ++ (if e.argument_context.isEmpty then []
      else [(S "- **Argument**: ") ++ e.argument_context])
  ++ [(S "- **Assessment**: ") ++ e.explanation]
  ++ authLine e
  ++ [[]]

/-- The Reply-Brief Critiques section. -/
def critiqueSection (es : List Entry) : List Str :=
  if es.isEmpty then [] else (S "#### Reply-Brief Critiques\n") :: es.flatMap critiqueLines

/-- One row of the error-summary table (s5_citecheck.py line 517). -/
def tableRow (i : Nat) (e : Entry) : Str :=
  (S "| ") ++ natStr i ++ (S " | ") ++ e.citation ++ (S " | ") ++ e.severity
    ++ (S " | ") ++ (e.explanation.take 80) ++ (S " |")

/-- The Error Summary table, built from accuracy entries only
(s5_citecheck.py lines 512-518). -/
def tableSection (es : List Entry) : List Str :=
  if es.isEmpty then []
  else
    (S "#### Error Summary\n")
      :: (S "| # | Citation | Severity | Assessment |")
      :: (S "|---|----------|----------|------------|")
      :: ((List.enumFrom 1 es).map (fun ie => tableRow ie.1 ie.2) ++ [[]])

/-- _format_report for one brief, as the list of lines the code joins with
newlines (s5_citecheck.py lines 364-520). -/
def formatReport (brief : Str) (pairs : List MPair) : List Str :=
  let entries := pairs.map mkEntry
  let acc := entries.filter (inBucket Bucket.accuracy)
  let rel := entries.filter (inBucket Bucket.relevance)
  let adv := entries.filter (inBucket Bucket.advocacy)
  let cri := entries.filter (inBucket Bucket.critique)
  let cnt := entries.foldl (fun c e => bump c e.severity) counts0
  ((S "### ") ++ brief ++ (S " -- Cite-Check Report\n"))
    :: summaryStr pairs.length acc.length adv.length rel.length cri.length cnt
    :: (accuracySection acc ++ relevanceSection rel ++ advocacySection adv
        ++ critiqueSection cri ++ tableSection acc)

/-- The per-brief report assembly of run (s5_citecheck.py lines 667-678):
briefs iterate in the caller-supplied order and a brief with no pairs
contributes nothing. -/
def buildReportAux (grouped : List (Str × List MPair)) (nf : List MPair) :
    List Str → List (List Str)
  | [] => []
  | b :: rest =>
    (if (briefPairs grouped nf b).isEmpty then []
     else [formatReport b (briefPairs grouped nf b)])
      ++ buildReportAux grouped nf rest

/-- The whole report document as a list of sections, the header first. -/
def buildReport (txt_files : List Str) (grouped : List (Str × List MPair))
    (nf : List MPair) : List (List Str) :=
  [S "# Cite-Check Report\n"] :: buildReportAux grouped nf txt_files

/-! ### Lemmas: the normalizer loops agree with their find? characterization -/

theorem bwRevLoop_eq (l : List Str) :
    bwRevLoop l = (l.map cleanWord).find? (fun c => !bwSkip c) := by
  induction l with
  | nil => rfl
  | cons w rest ih =>
    simp only [bwRevLoop, List.map_cons, List.find?]
    by_cases h : bwSkip (cleanWord w)
    · simp [h, ih]
    · simp [h]

theorem bwFwdLoop_eq (l : List Str) :
    bwFwdLoop l = (l.map cleanWord).find? bwKeep := by
  induction l with
  | nil => rfl
  | cons w rest ih =>
    simp only [bwFwdLoop, List.map_cons, List.find?]
    by_cases h : bwKeep (cleanWord w)
    · simp [h]
    · simp [h, ih]

theorem best_word_eq_spec (p : Str) : best_word p = distinctiveWordSpec p := by
  unfold best_word distinctiveWordSpec
  rw [bwRevLoop_eq, bwFwdLoop_eq, List.map_reverse]

/-- C8: the Normalizer splits a case name on the party separator, treating the
whole string as one party when the separator is absent; the most distinctive
word of a party is the first cleaned word of the reverse walk that is not a
pure-digit token, a single-character token or a fixed noise word, with the
first substantive forward word as fallback (proved as equality with the
find?-based characterization of those words); and when the first party is in
the fixed generic-party set and a second party exists, the second party's
distinctive word is ordered first in the returned token list. -/
theorem c8_normalizer_distinctive_word (case_name party : Str) :
    best_word party = distinctiveWordSpec party ∧
    ((lsub (S " v. ") case_name = false ∧ lsub (S " v ") case_name = false) →
      splitParties case_name = [case_name]) ∧
    (GENERIC_PARTIES.contains
        (rstripCh ['.', ','] (lc (stripWS ((splitParties case_name).headD [])))) = true →
      1 < (splitParties case_name).length →
      stripWS ((splitParties case_name).getD 1 []) ≠ [] →
      best_word (stripWS ((splitParties case_name).getD 1 [])) ≠ [] →
      (extract_match_names case_name).head? =
        some (distinctiveWordSpec (stripWS ((splitParties case_name).getD 1 [])))) := by
  refine ⟨best_word_eq_spec party, ?_, ?_⟩
  · intro ⟨h1, h2⟩
    unfold splitParties
    simp [h1, h2]
  · intro hg hlen hne hbw
    unfold extract_match_names
    have hgen : (GENERIC_PARTIES.contains
        (rstripCh ['.', ','] (lc (stripWS ((splitParties case_name).headD []))))
        && !(if 1 < (splitParties case_name).length then
              stripWS ((splitParties case_name).getD 1 []) else []).isEmpty) = true := by
      simp only [hlen, if_true, if_pos, hg, Bool.true_and, Bool.not_eq_true']
      cases h : stripWS ((splitParties case_name).getD 1 []) with
      | nil => exact absurd h hne
      | cons a l => rfl
    simp only [hgen, if_true, if_pos, hlen]
    unfold optTok
    have hbe : (best_word (stripWS ((splitParties case_name).getD 1 []))).isEmpty = false := by
      cases h : best_word (stripWS ((splitParties case_name).getD 1 [])) with
      | nil => exact absurd h hbw
      | cons a l => rfl
    rw [hbe]
    simp only [best_word_eq_spec]
    have hcond : (GENERIC_PARTIES.contains
        (rstripCh ['.', ','] (lc (stripWS ((splitParties case_name).headD []))))
        && !List.isEmpty (stripWS ((splitParties case_name).getD 1 []))) = true := by
      rw [hg]
      simp only [Bool.true_and, Bool.not_eq_true']
      cases h : stripWS ((splitParties case_name).getD 1 []) with
      | nil => exact absurd h hne
      | cons a l => rfl
    rw [if_pos hcond]
    simp

/-! ### Lemmas about the routing chain -/

theorem routeBucket_relevance_iff (e : Entry) :
    routeBucket e = Bucket.relevance ↔
      (e.severity = S "Verified" ∧
        (e.relevance = some (S "analogous") ∨ e.relevance = some (S "off_point"))) := by
  by_cases h1 : e.severity = S "Advocacy"
  · have hr : routeBucket e = Bucket.advocacy := by
      unfold routeBucket
      rw [if_pos h1]
    rw [hr]
    constructor
    · intro h
      exact absurd h (by decide)
    · intro hvr
      rw [hvr.1] at h1
      exact absurd h1 (by decide)
  · by_cases h2 : e.severity = S "Critique-Valid" ∨ e.severity = S "Critique-Questionable"
    · have hr : routeBucket e = Bucket.critique := by
        unfold routeBucket
        rw [if_neg h1, if_pos h2]
      rw [hr]
      constructor
      · intro h
        exact absurd h (by decide)
      · intro hvr
        rw [hvr.1] at h2
        exact absurd h2 (by decide)
    · by_cases h3 : (e.relevance = some (S "analogous") ∨ e.relevance = some (S "off_point"))
          ∧ e.severity = S "Verified"
      · have hr : routeBucket e = Bucket.relevance := by
          unfold routeBucket
          rw [if_neg h1, if_neg h2, if_pos h3]
        rw [hr]
        exact iff_of_true rfl ⟨h3.2, h3.1⟩
      · have hne : routeBucket e ≠ Bucket.relevance := by
          unfold routeBucket
          rw [if_neg h1, if_neg h2, if_neg h3]
          by_cases h4 : e.severity = S "Minor" ∨ e.severity = S "Moderate"
              ∨ e.severity = S "Significant" ∨ e.severity = S "Critical"
              ∨ e.severity = S "Error"
          · rw [if_pos h4]
            decide
          · rw [if_neg h4]
            decide
        constructor
        · intro h
          exact absurd h hne
        · intro hvr
          exact absurd ⟨hvr.2, hvr.1⟩ h3

/-- The verdict of the C6 counterexample: Verified with relevance analogous. -/
def vBackgroundGap : Verdict :=
  { index := some 1
    severity := some (S "Verified")
    explanation := some (S "ok")
    quotation_accurate := none
    relevance := some (S "analogous")
    relevance_note := some (S "note")
    advocacy_gap := none }

/-- The input of the C6 counterexample: a mention whose purpose is background,
with a Verified verdict carrying relevance analogous. -/
def pBackgroundGap : MPair :=
  { case_name := some (S "A v. B")
    volume := some (S "1")
    reporter := some (S "X")
    page := some (S "2")
    pin_cite := none
    proposition := some (S "p")
    quotation := none
    purpose := some (S "background")
    argument_context := none
    brief_name := S "b.txt"
    authority_file := some (S "f.txt")
    verdict := some vBackgroundGap }

/-- C6 counterexample: a merged mention whose purpose is background, not
supporting, is placed in the relevance-gaps bucket, refuting the clause that
a mention whose purpose is not supporting is never placed there. -/
theorem c6_counterexample_background_in_gap_bucket :
    routeBucket (mkEntry pBackgroundGap) = Bucket.relevance ∧
    (mkEntry pBackgroundGap).purpose = S "background" ∧
    (mkEntry pBackgroundGap).purpose ≠ S "supporting" := by
  refine ⟨by decide, by decide, by decide⟩

/-- C6 (amended): a merged mention is placed in the relevance-gaps bucket
exactly when its verdict severity is Verified and its relevance is analogous
or off_point; the mention's purpose is not consulted by the routing chain. -/
theorem c6_relevance_gap_routing (p : MPair) :
    routeBucket (mkEntry p) = Bucket.relevance ↔
      ((mkEntry p).severity = S "Verified" ∧
        ((mkEntry p).relevance = some (S "analogous") ∨
         (mkEntry p).relevance = some (S "off_point"))) :=
  routeBucket_relevance_iff (mkEntry p)

/-- C10: an out-of-vocabulary severity string from the verification service is
kept on the entry, routed to the verified bucket, and contributes to no
per-severity count of the summary line. -/
theorem c10_unknown_severity_clean (p : MPair) (v : Verdict) (sev : Str) (c : Counts)
    (haf : p.authority_file.isSome = true)
    (hv : p.verdict = some v)
    (hs : v.severity = some sev)
    (hvoc : sev ∉ [S "Verified", S "Minor", S "Moderate", S "Significant",
      S "Critical", S "Advocacy", S "Critique-Valid", S "Critique-Questionable",
      S "Error"]) :
    (mkEntry p).severity = sev ∧
    routeBucket (mkEntry p) = Bucket.verified ∧
    bump c sev = c := by
  simp only [List.mem_cons, List.not_mem_nil, or_false, not_or] at hvoc
  obtain ⟨nVer, nMin, nMod, nSig, nCri, nAdv, nCV, nCQ, nErr⟩ := hvoc
  have hnone : p.authority_file.isNone = false := by
    cases h : p.authority_file with
    | none => rw [h] at haf; exact absurd haf (by decide)
    | some f => rfl
  have hsev : (mkEntry p).severity = sev := by
    unfold mkEntry
    rw [hv]
    simp only [hnone, Bool.false_eq_true, if_false, hs, Option.getD_some]
  refine ⟨hsev, ?_, ?_⟩
  · unfold routeBucket
    rw [hsev]
    rw [if_neg nAdv, if_neg (by simp [nCV, nCQ]), if_neg (by simp [nVer]),
      if_neg (by simp [nMin, nMod, nSig, nCri, nErr])]
  · unfold bump
    rw [if_neg nCri, if_neg nSig, if_neg nMod, if_neg nMin, if_neg nVer,
      if_neg nAdv, if_neg nCV, if_neg nCQ, if_neg nErr]

/-- The verdict with the out-of-vocabulary severity used by the C10 witness. -/
def vWobbly : Verdict :=
  { index := some 1
    severity := some (S "Wobbly")
    explanation := some (S "odd")
    quotation_accurate := none
    relevance := none
    relevance_note := none
    advocacy_gap := none }

/-- A concrete pair carrying the out-of-vocabulary severity Wobbly. -/
def pWobbly : MPair :=
  { case_name := some (S "A v. B")
    volume := some (S "1")
    reporter := some (S "X")
    page := some (S "2")
    pin_cite := none
    proposition := none
    quotation := none
    purpose := some (S "supporting")
    argument_context := none
    brief_name := S "b.txt"
    authority_file := some (S "f.txt")
    verdict := some vWobbly }

/-- C10 witness at the concrete out-of-vocabulary severity Wobbly. -/
theorem c10_unknown_severity_clean_witness :
    (mkEntry pWobbly).severity = S "Wobbly" ∧
    routeBucket (mkEntry pWobbly) = Bucket.verified ∧
    bump counts0 (S "Wobbly") = counts0 :=
  c10_unknown_severity_clean pWobbly vWobbly (S "Wobbly") counts0
    (by decide) rfl rfl (by decide)

/-! ### The five report buckets partition the entries -/

theorem inBucket_exactly_one (e : Entry) :
    (inBucket Bucket.accuracy e).toNat + (inBucket Bucket.relevance e).toNat
      + (inBucket Bucket.advocacy e).toNat + (inBucket Bucket.critique e).toNat
      + (inBucket Bucket.verified e).toNat = 1 := by
  unfold inBucket
  cases h : routeBucket e <;> simp [h]

theorem bucket_filter_sum (l : List Entry) :
    (l.filter (inBucket Bucket.accuracy)).length
      + (l.filter (inBucket Bucket.relevance)).length
      + (l.filter (inBucket Bucket.advocacy)).length
      + (l.filter (inBucket Bucket.critique)).length
      + (l.filter (inBucket Bucket.verified)).length = l.length := by
  induction l with
  | nil => rfl
  | cons e rest ih =>
    simp only [List.filter_cons, List.length_cons]
    have h1 := inBucket_exactly_one e
    cases ha : inBucket Bucket.accuracy e <;>
      cases hr : inBucket Bucket.relevance e <;>
        cases hd : inBucket Bucket.advocacy e <;>
          cases hc : inBucket Bucket.critique e <;>
            cases hv : inBucket Bucket.verified e <;>
              simp [ha, hr, hd, hc, hv] at h1 ⊢ <;> omega

/-- C7: the categorizer routes every merged pair into exactly one of the five
buckets, the five bucket sizes sum to the total pair count of the brief, and
the summary line of the rendered report reports exactly that total together
with the per-bucket counts. -/
theorem c7_buckets_partition (brief : Str) (pairs : List MPair) :
    ((pairs.map mkEntry).filter (inBucket Bucket.accuracy)).length
      + ((pairs.map mkEntry).filter (inBucket Bucket.relevance)).length
      + ((pairs.map mkEntry).filter (inBucket Bucket.advocacy)).length
      + ((pairs.map mkEntry).filter (inBucket Bucket.critique)).length
      + ((pairs.map mkEntry).filter (inBucket Bucket.verified)).length
      = pairs.length ∧
    (∀ e : Entry, (inBucket Bucket.accuracy e).toNat + (inBucket Bucket.relevance e).toNat
      + (inBucket Bucket.advocacy e).toNat + (inBucket Bucket.critique e).toNat
      + (inBucket Bucket.verified e).toNat = 1) ∧
    (formatReport brief pairs).get? 1 = some (summaryStr pairs.length
      ((pairs.map mkEntry).filter (inBucket Bucket.accuracy)).length
      ((pairs.map mkEntry).filter (inBucket Bucket.advocacy)).length
      ((pairs.map mkEntry).filter (inBucket Bucket.relevance)).length
      ((pairs.map mkEntry).filter (inBucket Bucket.critique)).length
      ((pairs.map mkEntry).foldl (fun c e => bump c e.severity) counts0)) := by
  refine ⟨?_, inBucket_exactly_one, rfl⟩
  have := bucket_filter_sum (pairs.map mkEntry)
  rw [List.length_map] at this
  exact this

/-! ### Matcher counterexample inputs -/

/-- A mention whose citation 1 X 2 appears in the content of document B only,
while document A carries the citation in its filename alone. -/
def ceFilenamePreempt : CaseEntry :=
  { full_entry := []
    case_name := []
    volume := S "1"
    reporter := S "X"
    page := S "2"
    wl_year := []
    wl_number := []
    docket_number := []
    match_names := [] }

/-- Corpus with the citation in the filename of A and the content of B. -/
def fsFilenamePreempt : Corpus :=
  [(S "A 1 X 2", []), (S "B", S "has 1 X 2 inside")]

/-- A mention with only a name token, no parsed citation components. -/
def ceNameOnly : CaseEntry :=
  { full_entry := []
    case_name := []
    volume := []
    reporter := []
    page := []
    wl_year := []
    wl_number := []
    docket_number := []
    match_names := [S "smith"] }

/-- Corpus whose two content headers both match the name prefix. -/
def fsTwoHeaders : Corpus :=
  [(S "a.txt", S "smith one"), (S "b.txt", S "smithy two")]

/-- Corpus whose single content header matches the name prefix. -/
def fsOneHeader : Corpus := [(S "a.txt", S "smith opinion")]

/-- C2 counterexample: the citation string appears verbatim in the content of
exactly one document, B, yet the matcher returns document A, whose filename
carries the citation: the filename strategy preempts content, so the result
does not reference the content-bearing document. -/
theorem c2_counterexample_filename_preempts_content :
    lsub (citeStr ceFilenamePreempt) (S "has 1 X 2 inside") = true ∧
    lsub (citeStr ceFilenamePreempt) [] = false ∧
    match_authority ceFilenamePreempt fsFilenamePreempt =
      ⟨S "found", some (S "A 1 X 2"), some (S "cite_in_filename")⟩ ∧
    (match_authority ceFilenamePreempt fsFilenamePreempt).file ≠ some (S "B") := by
  refine ⟨by decide, by decide, by decide, by decide⟩

/-- C3 counterexample: the name-in-content strategy yields two candidate
documents, but neither narrowing applies, so the cascade moves past it and
ends missing: a strategy that produced candidates did not determine the
result. -/
theorem c3_counterexample_candidates_fall_through :
    (cand5 fsTwoHeaders (S "smith")).length = 2 ∧
    match_authority ceNameOnly fsTwoHeaders = missingResult := by
  refine ⟨by decide, by decide⟩

/-- C4 counterexample: a single-candidate name-in-content match, with no
disambiguation step, is returned with status found, not uncertain. -/
theorem c4_counterexample_single_name_hit_is_found :
    cand5 fsOneHeader (S "smith") = [S "a.txt"] ∧
    match_authority ceNameOnly fsOneHeader =
      ⟨S "found", some (S "a.txt"), some (S "name_in_content (smith)")⟩ ∧
    (match_authority ceNameOnly fsOneHeader).status ≠ S "uncertain" := by
  refine ⟨by decide, by decide, by decide⟩

/-! ### Per-strategy lemmas -/

theorem strat1_status {c : CaseEntry} {fs : Corpus} {r : MatchResult}
    (h : strat1 c fs = some r) : r.status = S "found" := by
  unfold strat1 at h
  split at h
  · exact absurd h (by simp)
  · injection h with h
    rw [← h]
    try rfl
  · split at h
    · injection h with h
      rw [← h]
      try rfl
    · injection h with h
      rw [← h]
      try rfl

theorem strat2_status {c : CaseEntry} {fs : Corpus} {r : MatchResult}
    (h : strat2 c fs = some r) : r.status = S "found" := by
  unfold strat2 at h
  split at h
  · exact absurd h (by simp)
  · injection h with h
    rw [← h]
    try rfl

theorem strat3_status {c : CaseEntry} {fs : Corpus} {r : MatchResult}
    (h : strat3 c fs = some r) : r.status = S "found" := by
  unfold strat3 at h
  split at h
  · exact absurd h (by simp)
  · injection h with h
    rw [← h]
    try rfl
  · split at h
    · injection h with h
      rw [← h]
      try rfl
    · injection h with h
      rw [← h]
      try rfl

theorem strat4_status {c : CaseEntry} {fs : Corpus} {r : MatchResult}
    (h : strat4 c fs = some r) : r.status = S "found" := by
  unfold strat4 at h
  split at h
  · exact absurd h (by simp)
  · injection h with h
    rw [← h]
    try rfl

theorem strat4b_status {c : CaseEntry} {fs : Corpus} {r : MatchResult}
    (h : strat4b c fs = some r) : r.status = S "found" := by
  unfold strat4b at h
  split at h
  · exact absurd h (by simp)
  · injection h with h
    rw [← h]
    try rfl

theorem rawOne_status {fs : Corpus} {rcs : Str} {r : MatchResult}
    (h : rawOne fs rcs = some r) : r.status = S "found" := by
  unfold rawOne at h
  split at h
  · exact absurd h (by simp)
  · split at h
    · injection h with h
      rw [← h]
      try rfl
    · exact absurd h (by simp)

theorem rawLoop_status {fs : Corpus} {r : MatchResult} :
    ∀ {l : List Str}, rawLoop fs l = some r → r.status = S "found" := by
  intro l
  induction l with
  | nil => intro h; exact absurd h (by simp [rawLoop])
  | cons rc rest ih =>
    intro h
    unfold rawLoop at h
    split at h
    · rename_i hone
      injection h with h
      rw [← h]
      exact rawOne_status hone
    · exact ih h

theorem strat4c_status {c : CaseEntry} {fs : Corpus} {r : MatchResult}
    (h : strat4c c fs = some r) : r.status = S "found" := by
  unfold strat4c at h
  split at h
  · exact rawLoop_status h
  · exact absurd h (by simp)

theorem otherLoop_status {fs : Corpus} {hits : List Str} {name : Str} {r : MatchResult} :
    ∀ {l : List Str}, otherLoop fs hits name l = some r → r.status = S "found" := by
  intro l
  induction l with
  | nil => intro h; exact absurd h (by simp [otherLoop])
  | cons oname rest ih =>
    intro h
    unfold otherLoop at h
    split at h
    · injection h with h
      rw [← h]
      try rfl
    · exact ih h

theorem nameMulti_status {c : CaseEntry} {fs : Corpus} {name : Str}
    {hits : List Str} {r : MatchResult}
    (h : nameMulti c fs name hits = some r) : r.status = S "found" := by
  unfold nameMulti at h
  split at h
  · rename_i hnarrow
    injection h with h
    rw [← h]
    split at hnarrow
    · exact otherLoop_status hnarrow
    · exact absurd hnarrow (by simp)
  · split at h
    · split at h
      · injection h with h
        rw [← h]
        try rfl
      · exact absurd h (by simp)
    · exact absurd h (by simp)

theorem nameLoop_status {c : CaseEntry} {fs : Corpus} {r : MatchResult} :
    ∀ {l : List Str}, nameLoop c fs l = some r → r.status = S "found" := by
  intro l
  induction l with
  | nil => intro h; exact absurd h (by simp [nameLoop])
  | cons name rest ih =>
    intro h
    unfold nameLoop at h
    split at h
    · exact ih h
    · split at h
      · exact ih h
      · injection h with h
        rw [← h]
        try rfl
      · split at h
        · rename_i hmulti
          injection h with h
          rw [← h]
          exact nameMulti_status hmulti
        · exact ih h

theorem strat5_status {c : CaseEntry} {fs : Corpus} {r : MatchResult}
    (h : strat5 c fs = some r) : r.status = S "found" :=
  nameLoop_status h

theorem strat1_isSome_iff (c : CaseEntry) (fs : Corpus) :
    (strat1 c fs).isSome = true ↔ cand1 c fs ≠ [] := by
  unfold strat1
  split
  · rename_i heq
    simp [heq]
  · rename_i f heq
    simp [heq]
  · rename_i f g rest heq
    split <;> simp [heq]

theorem strat2_isSome_iff (c : CaseEntry) (fs : Corpus) :
    (strat2 c fs).isSome = true ↔ cand2 c fs ≠ [] := by
  unfold strat2
  split
  · rename_i heq
    simp [heq]
  · rename_i f rest heq
    simp [heq]

theorem strat3_isSome_iff (c : CaseEntry) (fs : Corpus) :
    (strat3 c fs).isSome = true ↔ cand3 c fs ≠ [] := by
  unfold strat3
  split
  · rename_i heq
    simp [heq]
  · rename_i f heq
    simp [heq]
  · rename_i f g rest heq
    split <;> simp [heq]

theorem strat4_isSome_iff (c : CaseEntry) (fs : Corpus) :
    (strat4 c fs).isSome = true ↔ cand4 c fs ≠ [] := by
  unfold strat4
  split
  · rename_i heq
    simp [heq]
  · rename_i f rest heq
    simp [heq]

theorem strat4b_isSome_iff (c : CaseEntry) (fs : Corpus) :
    (strat4b c fs).isSome = true ↔ cand4b c fs ≠ [] := by
  unfold strat4b
  split
  · rename_i heq
    simp [heq]
  · rename_i f rest heq
    simp [heq]

/-- C3 (amended): the matcher tries its strategies in fixed priority order and
the first strategy that yields a usable result determines the MatchResult; for
strategies 1-5 of the code (filename cite, filename WL, content cite, content
WL, content docket) producing at least one candidate is the same as producing
a usable result, whereas the raw-cite and name-in-content strategies can yield
candidates and still pass control on when no narrowing to a single document
succeeds, and the filename-name strategy closes the cascade. -/
theorem c3_first_usable_strategy_wins (c : CaseEntry) (fs : Corpus) :
    (∀ r, strat1 c fs = some r → match_authority c fs = r) ∧
    (strat1 c fs = none → ∀ r, strat2 c fs = some r → match_authority c fs = r) ∧
    (strat1 c fs = none → strat2 c fs = none →
      ∀ r, strat3 c fs = some r → match_authority c fs = r) ∧
    (strat1 c fs = none → strat2 c fs = none → strat3 c fs = none →
      ∀ r, strat4 c fs = some r → match_authority c fs = r) ∧
    (strat1 c fs = none → strat2 c fs = none → strat3 c fs = none →
      strat4 c fs = none → ∀ r, strat4b c fs = some r → match_authority c fs = r) ∧
    (strat1 c fs = none → strat2 c fs = none → strat3 c fs = none →
      strat4 c fs = none → strat4b c fs = none →
      ∀ r, strat4c c fs = some r → match_authority c fs = r) ∧
    (strat1 c fs = none → strat2 c fs = none → strat3 c fs = none →
      strat4 c fs = none → strat4b c fs = none → strat4c c fs = none →
      ∀ r, strat5 c fs = some r → match_authority c fs = r) ∧
    (strat1 c fs = none → strat2 c fs = none → strat3 c fs = none →
      strat4 c fs = none → strat4b c fs = none → strat4c c fs = none →
      strat5 c fs = none → match_authority c fs = strat6 c fs) ∧
    ((strat1 c fs).isSome = true ↔ cand1 c fs ≠ []) ∧
    ((strat2 c fs).isSome = true ↔ cand2 c fs ≠ []) ∧
    ((strat3 c fs).isSome = true ↔ cand3 c fs ≠ []) ∧
    ((strat4 c fs).isSome = true ↔ cand4 c fs ≠ []) ∧
    ((strat4b c fs).isSome = true ↔ cand4b c fs ≠ []) := by
  refine ⟨?_, ?_, ?_, ?_, ?_, ?_, ?_, ?_,
    strat1_isSome_iff c fs, strat2_isSome_iff c fs, strat3_isSome_iff c fs,
    strat4_isSome_iff c fs, strat4b_isSome_iff c fs⟩
  · intro r hr
    unfold match_authority
    rw [hr]
  · intro h1 r hr
    unfold match_authority
    rw [h1, hr]
  · intro h1 h2 r hr
    unfold match_authority
    rw [h1, h2, hr]
  · intro h1 h2 h3 r hr
    unfold match_authority
    rw [h1, h2, h3, hr]
  · intro h1 h2 h3 h4 r hr
    unfold match_authority
    rw [h1, h2, h3, h4, hr]
  · intro h1 h2 h3 h4 h5 r hr
    unfold match_authority
    rw [h1, h2, h3, h4, h5, hr]
  · intro h1 h2 h3 h4 h5 h6 r hr
    unfold match_authority
    rw [h1, h2, h3, h4, h5, h6, hr]
  · intro h1 h2 h3 h4 h5 h6 h7
    unfold match_authority
    rw [h1, h2, h3, h4, h5, h6, h7]

/-- C4 (amended): every match produced by strategies 1-7 (the two filename
citation strategies, the three content citation strategies, the raw-cite
strategy and the name-in-content strategy, whether or not narrowing was
needed) carries status found; the filename-name strategy with a single
primary-name candidate yields status uncertain; and when no strategy yields
any candidate the result is missing. -/
theorem c4_status_semantics (c : CaseEntry) (fs : Corpus) :
    (∀ r, strat1 c fs = some r → r.status = S "found") ∧
    (∀ r, strat2 c fs = some r → r.status = S "found") ∧
    (∀ r, strat3 c fs = some r → r.status = S "found") ∧
    (∀ r, strat4 c fs = some r → r.status = S "found") ∧
    (∀ r, strat4b c fs = some r → r.status = S "found") ∧
    (∀ r, strat4c c fs = some r → r.status = S "found") ∧
    (∀ r, strat5 c fs = some r → r.status = S "found") ∧
    (∀ primary restNames f, c.match_names = primary :: restNames →
      cand6 fs primary = [f] →
      strat6 c fs = ⟨S "uncertain", some f, some ((S "name (") ++ primary ++ [')'])⟩) ∧
    (c.match_names = [] → strat6 c fs = missingResult) ∧
    (∀ primary restNames, c.match_names = primary :: restNames →
      cand6 fs primary = [] →
      (∀ sn, restNames.head? = some sn → cand6 fs sn = []) →
      strat6 c fs = missingResult) ∧
    (strat1 c fs = none → strat2 c fs = none → strat3 c fs = none →
      strat4 c fs = none → strat4b c fs = none → strat4c c fs = none →
      strat5 c fs = none → strat6 c fs = missingResult →
      match_authority c fs = missingResult) := by
  refine ⟨fun r h => strat1_status h, fun r h => strat2_status h,
    fun r h => strat3_status h, fun r h => strat4_status h,
    fun r h => strat4b_status h, fun r h => strat4c_status h,
    fun r h => strat5_status h, ?_, ?_, ?_, ?_⟩
  · intro primary restNames f hmn hc6
    unfold strat6
    rw [hmn]
    simp [hc6]
    rfl
  · intro hmn
    unfold strat6
    rw [hmn]
  · intro primary restNames hmn hprim hsec
    unfold strat6
    rw [hmn]
    cases restNames with
    | nil => simp [hprim]
    | cons sn tail =>
      have hs := hsec sn rfl
      simp [hprim, hs]
  · intro h1 h2 h3 h4 h5 h6 h7 h8
    unfold match_authority
    rw [h1, h2, h3, h4, h5, h6, h7, h8]

/-- C2 (amended): when no filename-based strategy fires (strategies 1 and 2
return nothing) and the citation-variant filter over the full document
contents selects exactly one document, the matcher returns status found
referencing that document through the content-citation strategy; the selected
document really carries a citation variant in its content. -/
theorem c2_content_cite_found (c : CaseEntry) (fs : Corpus) (fn : Str)
    (h1 : strat1 c fs = none) (h2 : strat2 c fs = none)
    (h3 : cand3 c fs = [fn]) :
    match_authority c fs = ⟨S "found", some fn, some (S "cite_in_content")⟩ ∧
    ∃ tx, (fn, tx) ∈ fs ∧ (citeVariants c).any (fun v => lsub v tx) = true := by
  constructor
  · unfold match_authority
    rw [h1, h2]
    unfold strat3
    rw [h3]
    rfl
  · unfold cand3 at h3
    by_cases hg : (!c.volume.isEmpty && !c.reporter.isEmpty && !c.page.isEmpty) = true
    · rw [if_pos hg] at h3
      cases hf : fs.filter (fun p => (citeVariants c).any (fun v => lsub v p.2)) with
      | nil => rw [hf] at h3; exact absurd h3 (by simp)
      | cons a l =>
        obtain ⟨a1, a2⟩ := a
        rw [hf] at h3
        simp only [List.map_cons, List.cons.injEq] at h3
        obtain ⟨ha1, hl⟩ := h3
        have hmem : (a1, a2) ∈ fs.filter
            (fun p => (citeVariants c).any (fun v => lsub v p.2)) := by
          rw [hf]
          exact List.mem_cons_self _ _
        have hsplit := List.mem_filter.mp hmem
        exact ⟨a2, ha1 ▸ hsplit.1, hsplit.2⟩
    · rw [if_neg hg] at h3
      exact absurd h3 (by simp)

/-- A mention whose citation appears only in content, for the C2 witness. -/
def ceContentOnly : CaseEntry :=
  { full_entry := []
    case_name := []
    volume := S "1"
    reporter := S "X"
    page := S "2"
    wl_year := []
    wl_number := []
    docket_number := []
    match_names := [] }

/-- A corpus whose single document carries the citation in its content. -/
def fsContentOnly : Corpus := [(S "B", S "has 1 X 2 inside")]

/-- C2 witness: the content-citation strategy fires on the concrete corpus. -/
theorem c2_content_cite_found_witness :
    match_authority ceContentOnly fsContentOnly =
      ⟨S "found", some (S "B"), some (S "cite_in_content")⟩ ∧
    ∃ tx, (S "B", tx) ∈ fsContentOnly ∧
      (citeVariants ceContentOnly).any (fun v => lsub v tx) = true :=
  c2_content_cite_found ceContentOnly fsContentOnly (S "B")
    (by decide) (by decide) (by decide)

/-! ### Lemmas for the merge-back characterization -/

/-- The last verdict of the list carrying 1-based index j+1, if any. -/
def findLast : List Verdict → Nat → Option Verdict
  | [], _ => none
  | v :: rest, j =>
    match findLast rest j with
    | some w => some w
    | none => if (v.index.getD 0) = (j : Int) + 1 then some v else none

theorem setAt_length (v : Verdict) :
    ∀ (l : List MPair) (i : Nat), (setAt l i v).length = l.length := by
  intro l
  induction l with
  | nil => intro i; rfl
  | cons p rest ih =>
    intro i
    cases i with
    | zero => rfl
    | succ n => simp [setAt, ih n]

theorem setAt_get? (v : Verdict) :
    ∀ (l : List MPair) (i j : Nat),
      (setAt l i v).get? j =
        if i = j then (l.get? j).map (fun p => { p with verdict := some v })
        else l.get? j := by
  intro l
  induction l with
  | nil =>
    intro i j
    simp [setAt]
  | cons p rest ih =>
    intro i j
    cases i with
    | zero =>
      cases j with
      | zero => rfl
      | succ m => simp [setAt]
    | succ n =>
      cases j with
      | zero => simp [setAt]
      | succ m =>
        simp only [setAt, List.get?]
        rw [ih n m]
        by_cases h : n = m
        · simp [h]
        · simp [h, fun hh => h (Nat.succ_injective hh)]

theorem assignStep_length (acc : List MPair) (v : Verdict) :
    (assignStep acc v).length = acc.length := by
  unfold assignStep
  split
  · rw [setAt_length]
  · rfl

theorem assignVerdicts_length (avs : List Verdict) :
    ∀ (props : List MPair), (assignVerdicts props avs).length = props.length := by
  induction avs with
  | nil => intro props; rfl
  | cons v rest ih =>
    intro props
    show (assignVerdicts (assignStep props v) rest).length = props.length
    rw [ih, assignStep_length]

theorem assignStep_get? (props : List MPair) (v : Verdict) (j : Nat)
    (hj : j < props.length) :
    (assignStep props v).get? j =
      if (v.index.getD 0) = (j : Int) + 1 then
        (props.get? j).map (fun p => { p with verdict := some v })
      else props.get? j := by
  unfold assignStep
  by_cases hcond : (v.index.getD 0) = (j : Int) + 1
  · rw [if_pos hcond]
    have hrange : 0 ≤ (v.index.getD 0) - 1 ∧ (v.index.getD 0) - 1 < (props.length : Int) := by
      constructor <;> omega
    rw [if_pos hrange, setAt_get?]
    have ht : ((v.index.getD 0) - 1).toNat = j := by omega
    rw [if_pos ht]
  · rw [if_neg hcond]
    by_cases hrange : 0 ≤ (v.index.getD 0) - 1 ∧ (v.index.getD 0) - 1 < (props.length : Int)
    · rw [if_pos hrange, setAt_get?]
      have hne : ((v.index.getD 0) - 1).toNat ≠ j := by omega
      rw [if_neg hne]
    · rw [if_neg hrange]

theorem findLast_cons (v : Verdict) (rest : List Verdict) (j : Nat) :
    findLast (v :: rest) j =
      (match findLast rest j with
       | some w => some w
       | none => if (v.index.getD 0) = (j : Int) + 1 then some v else none) := rfl

theorem assignVerdicts_get? (avs : List Verdict) :
    ∀ (props : List MPair) (j : Nat), j < props.length →
      (assignVerdicts props avs).get? j =
        (match findLast avs j with
         | some v => (props.get? j).map (fun p => { p with verdict := some v })
         | none => props.get? j) := by
  induction avs with
  | nil =>
    intro props j hj
    rfl
  | cons v rest ih =>
    intro props j hj
    have hj' : j < (assignStep props v).length := by rw [assignStep_length]; exact hj
    show (assignVerdicts (assignStep props v) rest).get? j = _
    rw [ih (assignStep props v) j hj', findLast_cons]
    cases hfl : findLast rest j with
    | some w =>
      simp only [hfl]
      rw [assignStep_get? props v j hj]
      by_cases hcond : (v.index.getD 0) = (j : Int) + 1
      · rw [if_pos hcond]
        cases props.get? j with
        | none => rfl
        | some p => rfl
      · rw [if_neg hcond]
    | none =>
      simp only [hfl]
      rw [assignStep_get? props v j hj]
      by_cases hcond : (v.index.getD 0) = (j : Int) + 1
      · simp only [if_pos hcond]
      · simp only [if_neg hcond]

/-- A request line is a proposition header when it starts with the fixed
numbering marker. -/
def isPropHeader (line : Str) : Bool := lstarts (S "--- Proposition ") line

theorem lstarts_self_append : ∀ (a b : Str), lstarts a (a ++ b) = true := by
  intro a
  induction a with
  | nil => intro b; rfl
  | cons c rest ih =>
    intro b
    simp [lstarts, ih b]

theorem propBlock_filter (i : Nat) (p : MPair) :
    (propBlock i p).filter isPropHeader = [propHeaderLine i p] := by
  have hhd : isPropHeader (propHeaderLine i p) = true := by
    unfold isPropHeader propHeaderLine
    simp only [List.append_assoc]
    exact lstarts_self_append _ _
  have hcit : ∀ x : Str, isPropHeader ((S "Citation as given: ") ++ x) = false :=
    fun x => rfl
  have hpin : ∀ x : Str, isPropHeader ((S "Pin cite: ") ++ x) = false := fun x => rfl
  have hpur : ∀ x : Str, isPropHeader ((S "Purpose: ") ++ x) = false := fun x => rfl
  have harg : ∀ x : Str, isPropHeader ((S "Argument context: ") ++ x) = false :=
    fun x => rfl
  have hpro : ∀ x : Str, isPropHeader ((S "Proposition: ") ++ x) = false := fun x => rfl
  have hquo : ∀ x : Str, isPropHeader ((S "Quotation from brief: \"") ++ x) = false :=
    fun x => rfl
  have hemp : isPropHeader [] = false := rfl
  unfold propBlock
  simp only [List.filter_append, List.filter_cons, List.filter_nil, List.append_assoc,
    hhd, hcit, hpur, hpro, hemp, if_true, if_false]
  by_cases h1 : (p.pin_cite.getD []).isEmpty = true <;>
    by_cases h2 : (p.argument_context.getD []).isEmpty = true <;>
      by_cases h3 : (p.quotation.getD []).isEmpty = true <;>
        simp [h1, h2, h3, hpin, harg, hquo, List.filter_cons, hemp]

theorem buildPropLines_headers_aux (k : Nat) (props : List MPair) :
    ((List.enumFrom k props).flatMap (fun ip => propBlock ip.1 ip.2)).filter isPropHeader
      = (List.enumFrom k props).map (fun ip => propHeaderLine ip.1 ip.2) := by
  induction props generalizing k with
  | nil => rfl
  | cons p rest ih =>
    simp only [List.enumFrom, List.flatMap_cons, List.map_cons, List.filter_append]
    rw [propBlock_filter, ih (k + 1)]
    rfl

/-- The request serialization contains exactly one header line per mention, in
submission order, numbered from 1. -/
theorem buildPropLines_headers (props : List MPair) :
    (buildPropLines props).filter isPropHeader
      = (List.enumFrom 1 props).map (fun ip => propHeaderLine ip.1 ip.2) :=
  buildPropLines_headers_aux 1 props

theorem assignVerdicts_out_of_range (avs : List Verdict) :
    ∀ (props : List MPair),
      (∀ v ∈ avs, ¬(1 ≤ v.index.getD 0 ∧ v.index.getD 0 ≤ (props.length : Int))) →
      assignVerdicts props avs = props := by
  induction avs with
  | nil => intro props _; rfl
  | cons v rest ih =>
    intro props hall
    have hstep : assignStep props v = props := by
      unfold assignStep
      rw [if_neg]
      have := hall v (List.mem_cons_self v rest)
      omega
    show assignVerdicts (assignStep props v) rest = props
    rw [hstep]
    exact ih props (fun w hw => hall w (List.mem_cons_of_mem v hw))

theorem mkEntry_no_verdict (p : MPair)
    (hv : p.verdict = none) (haf : p.authority_file.isSome = true) :
    (mkEntry p).severity = S "Error" ∧
    (mkEntry p).explanation = S "No verification result returned" := by
  have hnone : p.authority_file.isNone = false := by
    cases h : p.authority_file with
    | none => rw [h] at haf; exact absurd haf (by decide)
    | some f => rfl
  unfold mkEntry
  rw [hv]
  simp only [hnone, Bool.false_eq_true, if_false]
  constructor <;> first | rfl | trivial

theorem mkEntry_no_authority (p : MPair) (haf : p.authority_file = none) :
    (mkEntry p).severity = S "Critical" := by
  unfold mkEntry
  rw [haf]
  cases p.verdict <;> rfl

/-- C5: the verification request serializes exactly one block per grouped
mention in grouped order, numbered from 1; merge-back assigns the verdict
carrying 1-based index i to the i-th submitted mention (the last such verdict
when indices repeat), ignores verdicts whose indices are outside the
submitted range, and a mention whose index never received an assignment keeps
no verdict and is reported with severity Error and the explanation naming the
missing verification result. -/
theorem c5_request_and_merge (props : List MPair) (avs : List Verdict) :
    ((buildPropLines props).filter isPropHeader
      = (List.enumFrom 1 props).map (fun ip => propHeaderLine ip.1 ip.2)) ∧
    ((buildPropLines props).filter isPropHeader).length = props.length ∧
    (∀ j, j < props.length →
      (assignVerdicts props avs).get? j =
        (match findLast avs j with
         | some v => (props.get? j).map (fun p => { p with verdict := some v })
         | none => props.get? j)) ∧
    ((∀ v ∈ avs, ¬(1 ≤ v.index.getD 0 ∧ v.index.getD 0 ≤ (props.length : Int))) →
      assignVerdicts props avs = props) ∧
    (∀ j p, j < props.length → props.get? j = some p →
      p.verdict = none → p.authority_file.isSome = true →
      findLast avs j = none →
      (assignVerdicts props avs).get? j = some p ∧
      (mkEntry p).severity = S "Error" ∧
      (mkEntry p).explanation = S "No verification result returned") := by
  refine ⟨buildPropLines_headers props, ?_, ?_, assignVerdicts_out_of_range avs props, ?_⟩
  · rw [buildPropLines_headers props, List.length_map, List.enumFrom_length]
  · intro j hj
    exact assignVerdicts_get? avs props j hj
  · intro j p hj hp hv haf hfl
    refine ⟨?_, mkEntry_no_verdict p hv haf⟩
    rw [assignVerdicts_get? avs props j hj, hfl]
    exact hp

/-! ### Substring and partition lemmas for the merge phase -/

theorem lsub_of_lstarts : ∀ {a h : Str}, lstarts a h = true → lsub a h = true := by
  intro a h
  cases h with
  | nil =>
    cases a with
    | nil => intro _; rfl
    | cons c rest => intro hh; exact absurd hh (by simp [lstarts])
  | cons c rest =>
    intro hh
    unfold lsub
    rw [hh]
    rfl

theorem lsub_suffix : ∀ (pre : Str) {a t : Str}, lsub a t = true → lsub a (pre ++ t) = true := by
  intro pre
  induction pre with
  | nil => intro a t h; exact h
  | cons c rest ih =>
    intro a t h
    show lsub a (c :: (rest ++ t)) = true
    unfold lsub
    rw [ih h]
    simp

theorem lsub_middle (pre mid post : Str) : lsub mid (pre ++ mid ++ post) = true := by
  rw [List.append_assoc]
  exact lsub_suffix pre (lsub_of_lstarts (lstarts_self_append mid post))

theorem flatMap_filter_comm (P : MPair → Bool) :
    ∀ (l : List (Str × List MPair)),
      l.flatMap (fun g => g.2.filter P) = (l.flatMap (fun g => g.2)).filter P := by
  intro l
  induction l with
  | nil => rfl
  | cons g rest ih => simp [List.flatMap_cons, List.filter_append, ih]

theorem sum_map_add (f g : Str → Nat) :
    ∀ (l : List Str), (l.map (fun b => f b + g b)).sum = (l.map f).sum + (l.map g).sum := by
  intro l
  induction l with
  | nil => rfl
  | cons b rest ih =>
    simp [List.map_cons, List.sum_cons, ih]
    omega

theorem sum_indicator_zero (x : Str) :
    ∀ (txt : List Str), x ∉ txt → (txt.map (fun b => if x = b then 1 else 0)).sum = 0 := by
  intro txt
  induction txt with
  | nil => intro _; rfl
  | cons t rest ih =>
    intro hx
    have hxt : x ≠ t := fun h => hx (h ▸ List.mem_cons_self t rest)
    have hxr : x ∉ rest := fun h => hx (List.mem_cons_of_mem t h)
    simp [List.map_cons, hxt, ih hxr]

theorem sum_indicator_one (x : Str) :
    ∀ (txt : List Str), txt.Nodup → x ∈ txt →
      (txt.map (fun b => if x = b then 1 else 0)).sum = 1 := by
  intro txt
  induction txt with
  | nil => intro _ hx; exact absurd hx (List.not_mem_nil x)
  | cons t rest ih =>
    intro hnd hx
    have hnd' := List.nodup_cons.mp hnd
    by_cases hxt : x = t
    · have hxr : t ∉ rest := hnd'.1
      rw [hxt]
      simp [List.map_cons, sum_indicator_zero t rest hxr]
    · have hxr : x ∈ rest := by
        cases List.mem_cons.mp hx with
        | inl h => exact absurd h hxt
        | inr h => exact h
      simp [List.map_cons, hxt, ih hnd'.2 hxr]

theorem filter_brief_length_cons (b : Str) (p : MPair) (rest : List MPair) :
    ((p :: rest).filter (fun q => q.brief_name = b)).length
      = (if p.brief_name = b then 1 else 0)
        + (rest.filter (fun q => q.brief_name = b)).length := by
  by_cases h : p.brief_name = b <;> simp [List.filter_cons, h]
  omega

theorem partition_by_brief (txt : List Str) :
    ∀ (all : List MPair), txt.Nodup → (∀ p ∈ all, p.brief_name ∈ txt) →
      (txt.map (fun b => (all.filter (fun q => q.brief_name = b)).length)).sum
        = all.length := by
  intro all
  induction all with
  | nil =>
    intro _ _
    simp
  | cons p rest ih =>
    intro hnd hall
    have hstep : (txt.map (fun b => ((p :: rest).filter (fun q => q.brief_name = b)).length))
        = txt.map (fun b => (if p.brief_name = b then 1 else 0)
            + (rest.filter (fun q => q.brief_name = b)).length) := by
      apply List.map_congr_left
      intro b _
      exact filter_brief_length_cons b p rest
    rw [hstep, sum_map_add, sum_indicator_one p.brief_name txt hnd
      (hall p (List.mem_cons_self p rest)),
      ih hnd (fun q hq => hall q (List.mem_cons_of_mem p hq))]
    simp [List.length_cons]
    omega

theorem briefPairs_eq_filter (grouped : List (Str × List MPair)) (nf : List MPair)
    (b : Str) :
    briefPairs grouped nf b
      = ((grouped.flatMap (fun g => g.2)) ++ nf).filter (fun q => q.brief_name = b) := by
  unfold briefPairs
  rw [flatMap_filter_comm, ← List.filter_append]

/-- C1: after the merge phase no mention is dropped and none is left without a
usable verdict: every mention grouped under an authority whose verification
returned no usable result carries the synthesized Error verdict naming that
authority; every mention with no matching authority carries the synthesized
Critical verdict; the merge preserves each authority's mention count; summing
the per-brief report inputs over the (distinct) briefs accounts for every
merged mention exactly once; and the formatter synthesizes severity Error for
a mention whose verdict slot stayed empty and severity Critical for a mention
without an authority file. -/
theorem c1_every_mention_one_verdict (grouped : List (Str × List MPair))
    (verdicts : List (Str × List Verdict)) (nf : List MPair) (txt : List Str) :
    (∀ g ∈ grouped, ((verdicts.lookup g.1).getD []).isEmpty = true →
      ∀ p ∈ mergeOne g.1 g.2 ((verdicts.lookup g.1).getD []),
        p.verdict = some (errVerdict g.1) ∧
        (errVerdict g.1).severity = some (S "Error") ∧
        lsub g.1 (((errVerdict g.1).explanation).getD []) = true) ∧
    (∀ p ∈ markNotFound nf, p.verdict = some criticalVerdict ∧
      criticalVerdict.severity = some (S "Critical") ∧
      criticalVerdict.explanation = some (S "No authority file found")) ∧
    (∀ af props avs, (mergeOne af props avs).length = props.length) ∧
    (txt.Nodup →
      (∀ p ∈ ((mergeVerdicts grouped verdicts).flatMap (fun g => g.2))
          ++ markNotFound nf, p.brief_name ∈ txt) →
      (txt.map (fun b =>
        (briefPairs (mergeVerdicts grouped verdicts) (markNotFound nf) b).length)).sum
        = ((mergeVerdicts grouped verdicts).flatMap (fun g => g.2)).length
          + (markNotFound nf).length) ∧
    (∀ p : MPair, p.verdict = none → p.authority_file.isSome = true →
      (mkEntry p).severity = S "Error" ∧
      (mkEntry p).explanation = S "No verification result returned") ∧
    (∀ p : MPair, p.authority_file = none → (mkEntry p).severity = S "Critical") := by
  refine ⟨?_, ?_, ?_, ?_, fun p hv haf => mkEntry_no_verdict p hv haf,
    fun p haf => mkEntry_no_authority p haf⟩
  · intro g hg hemp p hp
    unfold mergeOne at hp
    rw [if_pos hemp] at hp
    obtain ⟨q, hq, rfl⟩ := List.mem_map.mp hp
    refine ⟨rfl, rfl, ?_⟩
    show lsub g.1 ((S "Verification failed for ") ++ g.1
      ++ (S " — Claude returned no results")) = true
    exact lsub_middle _ _ _
  · intro p hp
    unfold markNotFound at hp
    obtain ⟨q, hq, rfl⟩ := List.mem_map.mp hp
    exact ⟨rfl, rfl, rfl⟩
  · intro af props avs
    unfold mergeOne
    split
    · rw [List.length_map]
    · exact assignVerdicts_length avs props
  · intro hnd hall
    have hmap : (txt.map (fun b =>
        (briefPairs (mergeVerdicts grouped verdicts) (markNotFound nf) b).length))
        = txt.map (fun b =>
          ((((mergeVerdicts grouped verdicts).flatMap (fun g => g.2))
            ++ markNotFound nf).filter (fun q => q.brief_name = b)).length) := by
      apply List.map_congr_left
      intro b _
      rw [briefPairs_eq_filter]
    rw [hmap, partition_by_brief txt _ hnd hall, List.length_append]

theorem buildReportAux_eq (grouped : List (Str × List MPair)) (nf : List MPair) :
    ∀ txt : List Str, buildReportAux grouped nf txt
      = txt.flatMap (fun b =>
          if (briefPairs grouped nf b).isEmpty then []
          else [formatReport b (briefPairs grouped nf b)]) := by
  intro txt
  induction txt with
  | nil => rfl
  | cons b rest ih =>
    simp only [buildReportAux, List.flatMap_cons, ih]

/-- C9 counterexample: a brief on the caller-supplied list that contributed
zero mentions is skipped entirely, so the rendered report carries no summary
line for it, refuting the for-every-brief clause. -/
theorem c9_counterexample_zero_mention_brief_skipped :
    buildReport [S "brief1.txt"] [] [] = [[S "# Cite-Check Report\n"]] ∧
    (∀ sec ∈ buildReport [S "brief1.txt"] [] [], ∀ line ∈ sec,
      lstarts (S "**Summary**") line = false) := by
  refine ⟨by decide, by decide⟩

/-- C9 (amended): the report iterates briefs in the caller-supplied order,
rendering a section for every brief with at least one merged mention (a brief
with zero mentions is skipped); each rendered brief section opens with its
header line and a summary line carrying the total mention count and the
per-bucket counts, followed by the four bucket sections in the fixed order
accuracy, relevance gaps, advocacy targets, critiques, each a function only
of its own bucket, and a table built only from the accuracy bucket; a brief
whose four flagged buckets are all empty still renders its clean summary
line and nothing else. -/
theorem c9_report_rendering (txt : List Str) (grouped : List (Str × List MPair))
    (nf : List MPair) (brief : Str) (pairs : List MPair) :
    buildReport txt grouped nf
      = [S "# Cite-Check Report\n"] :: txt.flatMap (fun b =>
          if (briefPairs grouped nf b).isEmpty then []
          else [formatReport b (briefPairs grouped nf b)]) ∧
    (formatReport brief pairs).get? 0
      = some ((S "### ") ++ brief ++ (S " -- Cite-Check Report\n")) ∧
    formatReport brief pairs
      = ((S "### ") ++ brief ++ (S " -- Cite-Check Report\n"))
        :: summaryStr pairs.length
            ((pairs.map mkEntry).filter (inBucket Bucket.accuracy)).length
            ((pairs.map mkEntry).filter (inBucket Bucket.advocacy)).length
            ((pairs.map mkEntry).filter (inBucket Bucket.relevance)).length
            ((pairs.map mkEntry).filter (inBucket Bucket.critique)).length
            ((pairs.map mkEntry).foldl (fun c e => bump c e.severity) counts0)
        :: (accuracySection ((pairs.map mkEntry).filter (inBucket Bucket.accuracy))
            ++ relevanceSection ((pairs.map mkEntry).filter (inBucket Bucket.relevance))
            ++ advocacySection ((pairs.map mkEntry).filter (inBucket Bucket.advocacy))
            ++ critiqueSection ((pairs.map mkEntry).filter (inBucket Bucket.critique))
            ++ tableSection ((pairs.map mkEntry).filter (inBucket Bucket.accuracy))) ∧
    ((pairs.map mkEntry).filter (inBucket Bucket.accuracy) = [] →
      (pairs.map mkEntry).filter (inBucket Bucket.relevance) = [] →
      (pairs.map mkEntry).filter (inBucket Bucket.advocacy) = [] →
      (pairs.map mkEntry).filter (inBucket Bucket.critique) = [] →
      formatReport brief pairs
        = [(S "### ") ++ brief ++ (S " -- Cite-Check Report\n"),
           summaryStr pairs.length 0 0 0 0
             ((pairs.map mkEntry).foldl (fun c e => bump c e.severity) counts0)]) := by
  refine ⟨?_, rfl, rfl, ?_⟩
  · unfold buildReport
    rw [buildReportAux_eq]
  · intro h1 h2 h3 h4
    show ((S "### ") ++ brief ++ (S " -- Cite-Check Report\n"))
        :: summaryStr pairs.length
            ((pairs.map mkEntry).filter (inBucket Bucket.accuracy)).length
            ((pairs.map mkEntry).filter (inBucket Bucket.advocacy)).length
            ((pairs.map mkEntry).filter (inBucket Bucket.relevance)).length
            ((pairs.map mkEntry).filter (inBucket Bucket.critique)).length
            ((pairs.map mkEntry).foldl (fun c e => bump c e.severity) counts0)
        :: (accuracySection ((pairs.map mkEntry).filter (inBucket Bucket.accuracy))
            ++ relevanceSection ((pairs.map mkEntry).filter (inBucket Bucket.relevance))
            ++ advocacySection ((pairs.map mkEntry).filter (inBucket Bucket.advocacy))
            ++ critiqueSection ((pairs.map mkEntry).filter (inBucket Bucket.critique))
            ++ tableSection ((pairs.map mkEntry).filter (inBucket Bucket.accuracy))) = _
    rw [h1, h2, h3, h4]
    simp [accuracySection, relevanceSection, advocacySection, critiqueSection, tableSection]
